import Mathlib

/-!
Shallow embedding of `src/index.js` (quarterto/7up): a dirty-region sprite
compositor.  JavaScript values are modelled as follows: machine integers are
`Int`; a JS value that may be `false`/`undefined` (falsy) or a colour string
is `Option String` (`none` = falsy); an expression that may throw a
`TypeError` is wrapped in a further `Option` (`none` = fault).  Mutation is
modelled by explicit state passing.
-/

namespace SevenUp

/-- Model of the `Point` value: an immutable integer coordinate pair.
Thanks to the interning cache in the source (modelled separately by
`PointCache`/`intern`), JS identity equality of `Point`s coincides with
value equality, which is what `DecidableEq` gives us here. -/
structure Point where
  x : Int
  y : Int
deriving DecidableEq, Repr

/-- Model of `Point.prototype.add`: componentwise sum (`src/index.js:37`). -/
def Point.add (p q : Point) : Point :=
  ⟨p.x + q.x, p.y + q.y⟩

/-- Model of `range(start, end)` from the `lodash.range` dependency used at
`src/index.js:57-58`.  lodash's `createRange` picks step `1` when
`start < end` and step `-1` otherwise, and `baseRange` produces
`max(ceil((end - start) / step), 0)` elements, i.e. `|end - start|`
elements `start, start+step, …`.  In particular `range(5, 2) = [5, 4, 3]`
(descending), and the list is empty exactly when `start = end`. -/
def lodashRange (start stop : Int) : List Int :=
  (List.range (stop - start).natAbs).map
    (fun (i : Nat) => start + (if start < stop then 1 else -1) * (i : Int))

/-- Helper for the model of the `uniq` part of the `@quarterto/flat-map-uniq`
dependency: first-occurrence de-duplication carrying the set of already seen
elements.  (lodash-style `uniq` keeps the first occurrence of each value;
with interned `Point`s, JS identity equality is value equality.) -/
def uniqAux {α : Type} [DecidableEq α] (seen : List α) : List α → List α
  | [] => []
  | a :: as => if a ∈ seen then uniqAux seen as else a :: uniqAux (a :: seen) as

/-- First-occurrence de-duplication of a list (model of `uniq`). -/
def jsUniq {α : Type} [DecidableEq α] (l : List α) : List α :=
  uniqAux [] l

/-- Model of `flatMap` (`@quarterto/flatmap`): map then concatenate. -/
def flatMap {α β : Type} (l : List α) (f : α → List β) : List β :=
  (l.map f).flatten

/-- Model of `flatMapUniq` (`@quarterto/flat-map-uniq`): map, concatenate,
then de-duplicate keeping first occurrences. -/
def flatMapUniq {α β : Type} [DecidableEq β] (l : List α) (f : α → List β) : List β :=
  jsUniq ((l.map f).flatten)

/-- Model of `class BoundingRect` (`src/index.js:55`): origin (inclusive)
and opposite (exclusive) corner. -/
structure BoundingRect where
  origin : Point
  opposite : Point
deriving DecidableEq, Repr

/-- Model of `BoundingRect.prototype.pixels` (`src/index.js:56-60`):
`flatMap(range(origin.x, opposite.x), x => range(origin.y, opposite.y).map(y => Point.from({x,y})))`. -/
def BoundingRect.pixels (r : BoundingRect) : List Point :=
  flatMap (lodashRange r.origin.x r.opposite.x) (fun x =>
    (lodashRange r.origin.y r.opposite.y).map (fun y => Point.mk x y))

/-- The region hierarchy of the source: `BoundingRect` (`rect`),
`BoundingGroup` (`group`, `src/index.js:49`) and `NullBoundingBox`
(`nullBB`, `src/index.js:67`). -/
inductive Region where
  | rect (r : BoundingRect)
  | group (children : List Region)
  | nullBB
deriving Repr

/-- Model of `pixels()` over the region hierarchy: a rect rasterises
(`BoundingRect.pixels`), a group is `flatMapUniq(children, c => c.pixels())`
(`src/index.js:50-52`), the null region is empty (`src/index.js:68-70`). -/
def Region.pixels : Region → List Point
  | .rect r => r.pixels
  | .group cs => jsUniq ((cs.attach.map (fun c => Region.pixels c.1)).flatten)
  | .nullBB => []
decreasing_by
  have := List.sizeOf_lt_of_mem c.2
  simp only [Region.group.sizeOf_spec]
  omega

/-- State of the static two-level cache `Point.points` (`src/index.js:16`),
a JS object keyed first by `x` then by `y`, together with a supply of fresh
object identities.  An entry's `Nat` is the identity of the cached `Point`
instance. -/
structure PointCache where
  table : List (Int × List (Int × Nat))
  next : Nat

/-- JS object property lookup on an association list (latest binding wins,
matching in-place mutation modelled by prepending). -/
def lookupAssoc {α β : Type} [DecidableEq α] : List (α × β) → α → Option β
  | [], _ => none
  | (a, b) :: t, k => if k = a then some b else lookupAssoc t k

/-- Model of the `Point` constructor's interning logic (`src/index.js:18-31`):
if `Point.points[x][y]` exists return the cached instance, otherwise store
the newly constructed instance (a fresh identity) under `[x][y]`.  Returns
the identity of the resulting `Point` object and the updated cache. -/
def intern (c : PointCache) (x y : Int) : Nat × PointCache :=
  match lookupAssoc c.table x with
  | some inner =>
    match lookupAssoc inner y with
    | some i => (i, c)
    | none => (c.next, ⟨(x, (y, c.next) :: inner) :: c.table, c.next + 1⟩)
  | none => (c.next, ⟨(x, [(y, c.next)]) :: c.table, c.next + 1⟩)

/-- Two-level lookup in the point cache. -/
def lookup2 (c : PointCache) (x y : Int) : Option Nat :=
  (lookupAssoc c.table x).bind (fun inner => lookupAssoc inner y)

/-- Running a sequence of further `new Point(a, b)` constructions, threading
the cache. -/
def internMany (c : PointCache) : List (Int × Int) → PointCache
  | [] => c
  | (a, b) :: t => internMany (intern c a b).2 t

/-- Model of `class Sprite` (`src/index.js:73`).  Fields: `origin` is the
`_origin` slot behind the getter/setter pair, `palette` is the JS palette
object (`none` = key absent / falsy entry), `pixels` the 2D bitmap of
palette indices (a list of rows; the base-class field initialiser is `[]`,
subclasses such as `Circle` override it), `stale` the dirty flag
(initialised `true`), and `lastBoundingBox` the remembered previous
bounding box.  The source declares `lastBoundingBox` twice
(`src/index.js:76` with `new NullBoundingBox()` and `src/index.js:88` with
`null`); class fields run in order, so the effective initial value is
`null`, modelled as `none`. -/
structure Sprite where
  origin : Point
  palette : Nat → Option String
  pixels : List (List Nat)
  stale : Bool
  lastBoundingBox : Option BoundingRect

/-- The `Sprite` constructor together with its field initialisers:
`stale = true`, `lastBoundingBox = null` (see the duplicate-declaration
note on `Sprite`). -/
def mkSprite (origin : Point) (palette : Nat → Option String)
    (pixels : List (List Nat)) : Sprite :=
  ⟨origin, palette, pixels, true, none⟩

/-- Model of the `boundingBox` getter (`src/index.js:78-86`):
`new BoundingRect(origin, origin.add({x: pixels[0].length, y: pixels.length}))`.
When the bitmap has no rows, `this.pixels[0]` is `undefined` and reading
`.length` throws a `TypeError`, modelled as `none`. -/
def Sprite.boundingBox (s : Sprite) : Option BoundingRect :=
  match s.pixels.head? with
  | none => none
  | some row0 =>
    some ⟨s.origin, s.origin.add ⟨(row0.length : Int), (s.pixels.length : Int)⟩⟩

/-- Model of the `origin` setter (`src/index.js:112-116`) as invoked by
`move` (`src/index.js:118-120`): set `stale = true`, snapshot
`lastBoundingBox = this.boundingBox` (the getter still sees the old
`_origin`), then overwrite `_origin`.  A sprite with an empty bitmap throws
inside the snapshot (modelled `none`). -/
def Sprite.move (s : Sprite) (o : Point) : Option Sprite :=
  match s.boundingBox with
  | none => none
  | some bb => some { s with stale := true, lastBoundingBox := some bb, origin := o }

/-- Model of `Sprite.prototype.changedPixels` (`src/index.js:90-97`): when
`lastBoundingBox` is non-null, `new BoundingGroup([lastBoundingBox,
boundingBox]).pixels()`, i.e. `flatMapUniq([lastBoundingBox, boundingBox],
r => r.pixels())`; otherwise `boundingBox.pixels()`.  Either branch reads
the `boundingBox` getter, so an empty bitmap faults (`none`). -/
def Sprite.changedPixels (s : Sprite) : Option (List Point) :=
  match s.boundingBox with
  | none => none
  | some bb =>
    match s.lastBoundingBox with
    | some lb => some (flatMapUniq [lb, bb] BoundingRect.pixels)
    | none => some bb.pixels

/-- Model of `Sprite.prototype.getPixel` (`src/index.js:99-106`).  The JS
`||` chain short-circuits: when `rx < 0` or `ry < 0` the function returns
`false` before touching `pixels[0]`; with an empty bitmap the remaining
bounds test reads `pixels[0].length` and throws (`none`).  Past the bounds
test the source evaluates `palette[pixels[rx][ry]]` — note the row index is
`rx`: `pixels[rx]` is `undefined` whenever `rx ≥ rows` (throwing on the
inner index), while an in-range row with `ry` past its end yields
`palette[undefined]`, i.e. a falsy `undefined` (modelled `some none`). -/
def Sprite.getPixel (s : Sprite) (x y : Int) : Option (Option String) :=
  let rx := x - s.origin.x
  let ry := y - s.origin.y
  if rx < 0 ∨ ry < 0 then some none
  else
    match s.pixels.head? with
    | none => none
    | some row0 =>
      if (row0.length : Int) ≤ rx ∨ (s.pixels.length : Int) ≤ ry then some none
      else
        match s.pixels.get? rx.toNat with
        | none => none
        | some row =>
          match row.get? ry.toNat with
          | none => some none
          | some idx => some (s.palette idx)

/-- JS truthiness of the values `Layer.getPixel` inspects: `false` and
`undefined` (both `none`) are falsy, and so is the empty string. -/
def truthy : Option String → Bool
  | none => false
  | some s => !(s == "")

/-- A drawable member of a `Layer`: a `Sprite` or a `Background`
(`src/index.js:166-180`). -/
inductive Drawable where
  | sprite (s : Sprite)
  | background (color : String)

/-- The `stale` flag of a drawable: a sprite's field; `Background`'s getter
always returns `false` (`src/index.js:167-169`). -/
def Drawable.stale : Drawable → Bool
  | .sprite s => s.stale
  | .background _ => false

/-- The effect of `object.stale = false`: updates a sprite's field; the
`Background` setter is a no-op (`src/index.js:171`). -/
def Drawable.clearStale : Drawable → Drawable
  | .sprite s => .sprite { s with stale := false }
  | .background c => .background c

/-- `changedPixels()` of a drawable: a sprite's delta, or `[]` for a
`Background` (`src/index.js:173-175`). -/
def Drawable.changedPixels : Drawable → Option (List Point)
  | .sprite s => s.changedPixels
  | .background _ => some []

/-- `getPixel(x, y)` of a drawable: a sprite's palette lookup, or the
constant colour for a `Background` (`src/index.js:177-179`). -/
def Drawable.getPixel : Drawable → Int → Int → Option (Option String)
  | .sprite s, x, y => s.getPixel x y
  | .background c, _, _ => some (some c)

/-- Model of `class Layer` (`src/index.js:138`): member objects in paint
order plus a blend mode (the demo passes `false` for the default, modelled
`none`; `'lighter'` is `some "lighter"`). -/
structure Layer where
  objects : List Drawable
  blendMode : Option String

/-- `Option`-valued `mapM`, spelling out how a thrown `TypeError` aborts a
JS iteration that maps a fallible callback over a list. -/
def optMap {α β : Type} (f : α → Option β) : List α → Option (List β)
  | [] => some []
  | a :: t => (f a).bind (fun b => (optMap f t).bind (fun bs => some (b :: bs)))

/-- Model of `Layer.prototype.changedPixels` (`src/index.js:143-145`):
`flatMapUniq(objects.filter(o => o.stale), o => o.changedPixels())`. -/
def Layer.changedPixels (l : Layer) : Option (List Point) :=
  match optMap Drawable.changedPixels (l.objects.filter Drawable.stale) with
  | none => none
  | some ls => some (jsUniq ls.flatten)

/-- Model of the loop body of `Layer.prototype.getPixel`
(`src/index.js:147-157`): scan the objects in order; the first truthy
`getPixel` result clears that object's `stale` flag and is returned; a
thrown error propagates (`none` result, objects untouched); if no object
hits, the result is `false` (`some none`) and no object is touched. -/
def layerGetPixelAux : List Drawable → Int → Int → Option (Option String) × List Drawable
  | [], _, _ => (some none, [])
  | o :: os, x, y =>
    match o.getPixel x y with
    | none => (none, o :: os)
    | some px =>
      if truthy px then (some px, o.clearStale :: os)
      else
        let r := layerGetPixelAux os x y
        (r.1, o :: r.2)

/-- `Layer.prototype.getPixel` including its side effect on the member
objects. -/
def Layer.getPixel (l : Layer) (x y : Int) : Option (Option String) × Layer :=
  let r := layerGetPixelAux l.objects x y
  (r.1, { l with objects := r.2 })

/-- One recorded call on the rendering context (`ctx`), the external
drawing surface of §6. -/
inductive CtxOp where
  | setComposite (mode : String)
  | setFillStyle (color : String)
  | fillRect (x y : Int)
deriving DecidableEq, Repr

/-- Model of `Layer.prototype.drawPixel` (`src/index.js:159-163`):
`ctx.globalCompositeOperation = blendMode || 'source-over'`, then
`ctx.fillStyle = getPixel(x, y) || 'transparent'`, then
`ctx.fillRect(x, y, 1, 1)`.  Returns the emitted ctx calls and the updated
layer; a throwing `getPixel` aborts the frame (`none`). -/
def Layer.drawPixel (l : Layer) (p : Point) : Option (List CtxOp × Layer) :=
  let mode := l.blendMode.getD "source-over"
  match l.getPixel p.x p.y with
  | (none, _) => none
  | (some v, l') =>
    let fill := if truthy v then v.getD "" else "transparent"
    some ([.setComposite mode, .setFillStyle fill, .fillRect p.x p.y], l')

/-- Model of `class Canvas` (`src/index.js:182`): the ordered layers. -/
structure Canvas where
  layers : List Layer

/-- Model of `Canvas.prototype.changedPixels` (`src/index.js:187-189`):
`flatMapUniq(layers, layer => layer.changedPixels())`. -/
def Canvas.changedPixels (c : Canvas) : Option (List Point) :=
  match optMap Layer.changedPixels c.layers with
  | none => none
  | some ls => some (jsUniq ls.flatten)

/-- Model of `Canvas.prototype.drawPixel` (`src/index.js:197-201`): invoke
every layer's `drawPixel` at the coordinate, in order, threading each
layer's state. -/
def canvasDrawPixelAux : List Layer → Point → Option (List CtxOp × List Layer)
  | [], _ => some ([], [])
  | l :: ls, p =>
    match l.drawPixel p with
    | none => none
    | some (ops, l') =>
      match canvasDrawPixelAux ls p with
      | none => none
      | some (ops2, ls') => some (ops ++ ops2, l' :: ls')

/-- The `forEach` over changed pixels inside `Canvas.prototype.draw`
(`src/index.js:191-195`). -/
def canvasDrawLoop : List Point → Canvas → Option (List CtxOp × Canvas)
  | [], c => some ([], c)
  | p :: ps, c =>
    match canvasDrawPixelAux c.layers p with
    | none => none
    | some (ops, ls) =>
      match canvasDrawLoop ps ⟨ls⟩ with
      | none => none
      | some (ops2, c') => some (ops ++ ops2, c')

/-- Model of `Canvas.prototype.draw` (`src/index.js:191-195`): compute the
changed pixel set once, then draw each pixel through every layer. -/
def Canvas.draw (c : Canvas) : Option (List CtxOp × Canvas) :=
  match c.changedPixels with
  | none => none
  | some ps => canvasDrawLoop ps c

/-- The 10×10 `Circle` bitmap (`src/index.js:124-135`). -/
def circleBitmap : List (List Nat) :=
  [[0,0,0,0,1,1,0,0,0,0],
   [0,0,1,1,1,1,1,1,0,0],
   [0,1,1,1,1,1,1,1,1,0],
   [0,1,1,1,1,1,1,1,1,0],
   [1,1,1,1,1,1,1,1,1,1],
   [1,1,1,1,1,1,1,1,1,1],
   [0,1,1,1,1,1,1,1,1,0],
   [0,1,1,1,1,1,1,1,1,0],
   [0,0,1,1,1,1,1,1,0,0],
   [0,0,0,0,1,1,0,0,0,0]]

/-- The palette of `circle2` (`src/index.js:209-212`): `{0: '#000', 1: '#00FF00'}`. -/
def demoPalette : Nat → Option String :=
  fun n => if n = 0 then some "#000" else if n = 1 then some "#00FF00" else none

/-- The scene of claim C10: a 10×10 circle sprite (constructed at
`(95, 95)` like `circle2`, `src/index.js:209`) that has just been moved one
pixel diagonally to `(96, 96)`, on a `'lighter'` layer over a background
layer (`src/index.js:214-218`). -/
def demoMovedSprite : Sprite :=
  ((mkSprite ⟨95, 95⟩ demoPalette circleBitmap).move ⟨96, 96⟩).getD
    (mkSprite ⟨95, 95⟩ demoPalette circleBitmap)

/-- The two-layer canvas of claim C10. -/
def demoScene : Canvas :=
  ⟨[⟨[.background "#000"], none⟩, ⟨[.sprite demoMovedSprite], some "lighter"⟩]⟩

/-- Count of assignments of `'lighter'` to `ctx.globalCompositeOperation`
in a recorded ctx-call trace. -/
def countLighterSets (ops : List CtxOp) : Nat :=
  ops.countP (fun op =>
    match op with
    | .setComposite m => m == "lighter"
    | _ => false)

/-- The coordinates of the `fillRect` calls of a recorded ctx-call trace. -/
def fillCoords (ops : List CtxOp) : List Point :=
  ops.filterMap (fun op =>
    match op with
    | .fillRect x y => some ⟨x, y⟩
    | _ => none)

/-- Decidable test for membership in the union of the old (`(95,95)` to
`(105,105)`) and new (`(96,96)` to `(106,106)`) bounding boxes of the
demo sprite. -/
def inDemoUnion (p : Point) : Bool :=
  (decide (95 ≤ p.x) && decide (p.x < 105) && decide (95 ≤ p.y) && decide (p.y < 105)) ||
  (decide (96 ≤ p.x) && decide (p.x < 106) && decide (96 ≤ p.y) && decide (p.y < 106))

/-- A concrete palette used by witnesses and counterexamples, with distinct
colours for the indices `1`–`8`. -/
def testPalette : Nat → Option String := fun n =>
  if n = 1 then some "c1" else if n = 2 then some "c2" else if n = 3 then some "c3"
  else if n = 4 then some "c4" else if n = 7 then some "c7" else if n = 8 then some "c8"
  else none

theorem mem_uniqAux {α : Type} [DecidableEq α] (seen l : List α) (a : α) :
    a ∈ uniqAux seen l ↔ a ∈ l ∧ a ∉ seen := by
  induction l generalizing seen with
  | nil => simp [uniqAux]
  | cons b t ih =>
    by_cases hb : b ∈ seen
    · simp only [uniqAux, if_pos hb, ih, List.mem_cons]
      constructor
      · rintro ⟨h1, h2⟩
        exact ⟨Or.inr h1, h2⟩
      · rintro ⟨h1 | h1, h2⟩
        · exact absurd (h1 ▸ hb) h2
        · exact ⟨h1, h2⟩
    · simp only [uniqAux, if_neg hb, List.mem_cons, ih, not_or]
      constructor
      · rintro (rfl | ⟨h1, _, h3⟩)
        · exact ⟨Or.inl rfl, hb⟩
        · exact ⟨Or.inr h1, h3⟩
      · rintro ⟨rfl | h1, h2⟩
        · exact Or.inl rfl
        · by_cases hab : a = b
          · exact Or.inl hab
          · exact Or.inr ⟨h1, hab, h2⟩

theorem nodup_uniqAux {α : Type} [DecidableEq α] (seen l : List α) :
    (uniqAux seen l).Nodup := by
  induction l generalizing seen with
  | nil => simp [uniqAux]
  | cons b t ih =>
    by_cases hb : b ∈ seen
    · simpa only [uniqAux, if_pos hb] using ih seen
    · simp only [uniqAux, if_neg hb, List.nodup_cons]
      refine ⟨fun hmem => ?_, ih (b :: seen)⟩
      exact ((mem_uniqAux _ _ _).1 hmem).2 (List.mem_cons_self b seen)

theorem uniqAux_eq_nil {α : Type} [DecidableEq α] (seen l : List α)
    (h : ∀ a ∈ l, a ∈ seen) : uniqAux seen l = [] := by
  induction l with
  | nil => rfl
  | cons b t ih =>
    have hb : b ∈ seen := h b (List.mem_cons_self b t)
    simp only [uniqAux, if_pos hb]
    exact ih (fun a ha => h a (List.mem_cons_of_mem _ ha))

theorem uniqAux_append_absorb {α : Type} [DecidableEq α] (seen l l' : List α)
    (h : ∀ a ∈ l', a ∈ seen ∨ a ∈ l) :
    uniqAux seen (l ++ l') = uniqAux seen l := by
  induction l generalizing seen with
  | nil =>
    simp only [List.nil_append, uniqAux]
    exact uniqAux_eq_nil seen l' (fun a ha => (h a ha).elim id (by simp))
  | cons b t ih =>
    by_cases hb : b ∈ seen
    · simp only [List.cons_append, uniqAux, if_pos hb]
      refine ih seen (fun a ha => ?_)
      rcases h a ha with h1 | h1
      · exact Or.inl h1
      · rcases List.mem_cons.1 h1 with rfl | h1
        · exact Or.inl hb
        · exact Or.inr h1
    · simp only [List.cons_append, uniqAux, if_neg hb]
      refine congrArg _ (ih (b :: seen) (fun a ha => ?_))
      rcases h a ha with h1 | h1
      · exact Or.inl (List.mem_cons_of_mem _ h1)
      · rcases List.mem_cons.1 h1 with rfl | h1
        · exact Or.inl (List.mem_cons_self a seen)
        · exact Or.inr h1

theorem uniqAux_of_nodup {α : Type} [DecidableEq α] (seen l : List α)
    (hl : l.Nodup) (h : ∀ a ∈ l, a ∉ seen) : uniqAux seen l = l := by
  induction l generalizing seen with
  | nil => rfl
  | cons b t ih =>
    have hb : b ∉ seen := h b (List.mem_cons_self b t)
    simp only [uniqAux, if_neg hb]
    rcases List.nodup_cons.1 hl with ⟨hbt, ht⟩
    refine congrArg _ (ih (b :: seen) ht (fun a ha hs => ?_))
    rcases List.mem_cons.1 hs with rfl | hs
    · exact hbt ha
    · exact h a (List.mem_cons_of_mem _ ha) hs

theorem mem_jsUniq {α : Type} [DecidableEq α] (l : List α) (a : α) :
    a ∈ jsUniq l ↔ a ∈ l := by
  simp [jsUniq, mem_uniqAux]

theorem jsUniq_nodup {α : Type} [DecidableEq α] (l : List α) :
    (jsUniq l).Nodup :=
  nodup_uniqAux [] l

theorem jsUniq_append_self {α : Type} [DecidableEq α] (l : List α) :
    jsUniq (l ++ l) = jsUniq l :=
  uniqAux_append_absorb [] l l (fun _ ha => Or.inr ha)

theorem jsUniq_of_nodup {α : Type} [DecidableEq α] (l : List α) (hl : l.Nodup) :
    jsUniq l = l :=
  uniqAux_of_nodup [] l hl (by simp)

theorem lodashRange_self (a : Int) : lodashRange a a = [] := by
  simp [lodashRange]

theorem mem_lodashRange {a b : Int} (hab : a ≤ b) (n : Int) :
    n ∈ lodashRange a b ↔ a ≤ n ∧ n < b := by
  rcases eq_or_lt_of_le hab with rfl | h
  · rw [lodashRange_self]
    simp only [List.not_mem_nil, false_iff]
    omega
  · simp only [lodashRange, if_pos h, List.mem_map, List.mem_range]
    constructor
    · rintro ⟨i, hi, rfl⟩
      omega
    · intro hn
      refine ⟨(n - a).toNat, by omega, by omega⟩

theorem lodashRange_nodup (a b : Int) : (lodashRange a b).Nodup := by
  refine List.Nodup.map ?_ (List.nodup_range _)
  intro i j hij
  by_cases h : a < b <;> simp only [if_pos, if_neg, h, ite_true, ite_false] at hij <;> omega

theorem mem_rect_pixels {r : BoundingRect} (hx : r.origin.x ≤ r.opposite.x)
    (hy : r.origin.y ≤ r.opposite.y) (p : Point) :
    p ∈ r.pixels ↔
      r.origin.x ≤ p.x ∧ p.x < r.opposite.x ∧ r.origin.y ≤ p.y ∧ p.y < r.opposite.y := by
  obtain ⟨px, py⟩ := p
  simp only [BoundingRect.pixels, flatMap, List.mem_flatten, List.mem_map]
  constructor
  · rintro ⟨l, ⟨x, hxmem, rfl⟩, hp⟩
    rcases List.mem_map.1 hp with ⟨y, hymem, hy2⟩
    injection hy2 with h1 h2
    subst h1
    subst h2
    exact ⟨((mem_lodashRange hx _).1 hxmem).1, ((mem_lodashRange hx _).1 hxmem).2,
      ((mem_lodashRange hy _).1 hymem).1, ((mem_lodashRange hy _).1 hymem).2⟩
  · rintro ⟨h1, h2, h3, h4⟩
    refine ⟨(lodashRange r.origin.y r.opposite.y).map (Point.mk px),
      ⟨px, (mem_lodashRange hx _).2 ⟨h1, h2⟩, rfl⟩, ?_⟩
    exact List.mem_map.2 ⟨py, (mem_lodashRange hy _).2 ⟨h3, h4⟩, rfl⟩

theorem rect_pixels_nodup (r : BoundingRect) : r.pixels.Nodup := by
  simp only [BoundingRect.pixels, flatMap]
  rw [List.nodup_flatten]
  constructor
  · intro l hl
    rcases List.mem_map.1 hl with ⟨x, _, rfl⟩
    refine List.Nodup.map ?_ (lodashRange_nodup _ _)
    intro y y' hyy
    exact congrArg Point.y hyy
  · rw [List.pairwise_map]
    refine List.Pairwise.imp ?_ (lodashRange_nodup r.origin.x r.opposite.x)
    intro x x' hne
    rw [List.disjoint_left]
    rintro p hp hp'
    rcases List.mem_map.1 hp with ⟨y, _, rfl⟩
    rcases List.mem_map.1 hp' with ⟨y', _, h⟩
    exact hne (congrArg Point.x h.symm)

theorem lookupAssoc_cons {α β : Type} [DecidableEq α] (a : α) (b : β)
    (t : List (α × β)) (k : α) :
    lookupAssoc ((a, b) :: t) k = if k = a then some b else lookupAssoc t k := rfl

theorem intern_of_lookup2 (c : PointCache) (x y : Int) (i : Nat)
    (h : lookup2 c x y = some i) : intern c x y = (i, c) := by
  unfold lookup2 at h
  cases hx : lookupAssoc c.table x with
  | none => rw [hx] at h; exact absurd h (by simp)
  | some inner =>
    rw [hx, Option.some_bind] at h
    cases hy : lookupAssoc inner y with
    | none => rw [hy] at h; exact absurd h (by simp)
    | some j =>
      rw [hy] at h
      cases h
      simp only [intern, hx, hy]

theorem lookup2_intern (c : PointCache) (x y : Int) :
    lookup2 (intern c x y).2 x y = some (intern c x y).1 := by
  unfold intern lookup2
  cases hx : lookupAssoc c.table x with
  | none => simp [lookupAssoc_cons]
  | some inner =>
    cases hy : lookupAssoc inner y with
    | none => simp [hx, hy, lookupAssoc_cons]
    | some i => simp [hx, hy]

theorem lookup2_intern_preserve (c : PointCache) (a b x y : Int) (i : Nat)
    (h : lookup2 c x y = some i) : lookup2 (intern c a b).2 x y = some i := by
  unfold lookup2 at h
  cases hx : lookupAssoc c.table x with
  | none => rw [hx] at h; exact absurd h (by simp)
  | some inner =>
    rw [hx, Option.some_bind] at h
    unfold intern lookup2
    cases ha : lookupAssoc c.table a with
    | none =>
      have hxa : x ≠ a := fun he => by rw [he, ha] at hx; cases hx
      simp [ha, lookupAssoc_cons, hxa, hx, h]
    | some innerA =>
      cases hb : lookupAssoc innerA b with
      | some j => simp [ha, hb, hx, h]
      | none =>
        by_cases hxa : x = a
        · subst hxa
          rw [ha] at hx
          cases hx
          have hyb : y ≠ b := fun he => by rw [he, hb] at h; cases h
          simp [ha, hb, lookupAssoc_cons, hyb, h]
        · simp [ha, hb, lookupAssoc_cons, hxa, hx, h]

theorem lookup2_internMany_preserve (c : PointCache) (x y : Int) (i : Nat)
    (l : List (Int × Int)) (h : lookup2 c x y = some i) :
    lookup2 (internMany c l) x y = some i := by
  induction l generalizing c with
  | nil => exact h
  | cons ab t ih =>
    exact ih _ (lookup2_intern_preserve c ab.1 ab.2 x y i h)

/-- Claim C6: constructing a `Point` with coordinates `(x, y)` twice yields
the identical instance, regardless of the cache state the first
construction runs in and of any other `Point` constructions in between: the
second construction returns the very identity the first one produced, so
two `Point`s with equal coordinates are always the same object. -/
theorem point_interning (c : PointCache) (x y : Int) (others : List (Int × Int)) :
    intern (internMany (intern c x y).2 others) x y
      = ((intern c x y).1, internMany (intern c x y).2 others) := by
  refine intern_of_lookup2 _ x y _ ?_
  exact lookup2_internMany_preserve _ x y _ others (lookup2_intern c x y)

theorem region_pixels_group (cs : List Region) :
    Region.pixels (.group cs) = jsUniq ((cs.map Region.pixels).flatten) := by
  rw [Region.pixels]
  rw [List.attach_map_val cs Region.pixels]

/-- Claim C4, counterexample: the claim says `pixels()` is empty whenever
`origin.x ≥ opposite.x` (or `origin.y ≥ opposite.y`), but lodash's `range`
iterates downwards when `start > end`, so
`Rect((1,0), (0,1)).pixels() = [(1, 0)]`, not the empty sequence. -/
theorem rect_pixels_descending_nonempty :
    (BoundingRect.mk ⟨1, 0⟩ ⟨0, 1⟩).opposite.x ≤ (BoundingRect.mk ⟨1, 0⟩ ⟨0, 1⟩).origin.x
    ∧ BoundingRect.pixels ⟨⟨1, 0⟩, ⟨0, 1⟩⟩ ≠ []
    ∧ BoundingRect.pixels ⟨⟨1, 0⟩, ⟨0, 1⟩⟩ = [⟨1, 0⟩] := by
  refine ⟨by decide, by decide, by decide⟩

theorem mem_lodashRange_general (a b n : Int) :
    n ∈ lodashRange a b ↔ (a ≤ n ∧ n < b) ∨ (b < n ∧ n ≤ a) := by
  rcases lt_trichotomy a b with h | rfl | h
  · simp only [lodashRange, if_pos h, List.mem_map, List.mem_range]
    constructor
    · rintro ⟨i, hi, rfl⟩
      omega
    · rintro (⟨h1, h2⟩ | ⟨h1, h2⟩)
      · exact ⟨(n - a).toNat, by omega, by omega⟩
      · exfalso
        omega
  · rw [lodashRange_self]
    simp only [List.not_mem_nil, false_iff]
    omega
  · have hnb : ¬a < b := by omega
    simp only [lodashRange, if_neg hnb, List.mem_map, List.mem_range]
    constructor
    · rintro ⟨i, hi, rfl⟩
      omega
    · rintro (⟨h1, h2⟩ | ⟨h1, h2⟩)
      · exfalso
        omega
      · exact ⟨(a - n).toNat, by omega, by omega⟩

theorem mem_rect_pixels_general (r : BoundingRect) (p : Point) :
    p ∈ r.pixels ↔
      ((r.origin.x ≤ p.x ∧ p.x < r.opposite.x) ∨ (r.opposite.x < p.x ∧ p.x ≤ r.origin.x))
      ∧ ((r.origin.y ≤ p.y ∧ p.y < r.opposite.y) ∨ (r.opposite.y < p.y ∧ p.y ≤ r.origin.y)) := by
  obtain ⟨px, py⟩ := p
  simp only [BoundingRect.pixels, flatMap, List.mem_flatten, List.mem_map]
  constructor
  · rintro ⟨l, ⟨x, hxmem, rfl⟩, hp⟩
    rcases List.mem_map.1 hp with ⟨y, hymem, hy2⟩
    injection hy2 with h1 h2
    subst h1
    subst h2
    exact ⟨(mem_lodashRange_general _ _ _).1 hxmem, (mem_lodashRange_general _ _ _).1 hymem⟩
  · rintro ⟨hxc, hyc⟩
    refine ⟨(lodashRange r.origin.y r.opposite.y).map (Point.mk px),
      ⟨px, (mem_lodashRange_general _ _ _).2 hxc, rfl⟩, ?_⟩
    exact List.mem_map.2 ⟨py, (mem_lodashRange_general _ _ _).2 hyc, rfl⟩

theorem rect_pixels_eq_nil_iff (r : BoundingRect) :
    r.pixels = [] ↔ r.origin.x = r.opposite.x ∨ r.origin.y = r.opposite.y := by
  rw [List.eq_nil_iff_forall_not_mem]
  constructor
  · intro h
    by_contra hc
    push_neg at hc
    obtain ⟨hx, hy⟩ := hc
    refine h ⟨r.origin.x, r.origin.y⟩ ((mem_rect_pixels_general r _).2 ⟨?_, ?_⟩)
    · rcases lt_or_gt_of_ne hx with h' | h'
      · exact Or.inl ⟨le_refl _, h'⟩
      · exact Or.inr ⟨h', le_refl _⟩
    · rcases lt_or_gt_of_ne hy with h' | h'
      · exact Or.inl ⟨le_refl _, h'⟩
      · exact Or.inr ⟨h', le_refl _⟩
  · intro h p hp
    rw [mem_rect_pixels_general] at hp
    obtain ⟨hxc, hyc⟩ := hp
    rcases h with h | h <;> omega

/-- Claim C4, amended: `pixels()` yields, without duplicates, exactly the
points whose coordinates lie in the corresponding lodash ranges — on each
axis the half-open ascending interval `[origin, opposite)` when
`origin ≤ opposite`, and the descending interval `(opposite, origin]` when
`origin > opposite`; hence `Rect((0,0),(2,2)).pixels()` is exactly
`{(0,0),(0,1),(1,0),(1,1)}`, and the result is empty exactly when
`origin.x = opposite.x` or `origin.y = opposite.y` (never an error) — not
whenever `origin.x ≥ opposite.x` or `origin.y ≥ opposite.y`, as
`Rect((1,0),(0,1)).pixels() = [(1,0)]` shows. -/
theorem rect_pixels_spec :
    (∀ r : BoundingRect,
      (∀ p : Point, p ∈ r.pixels ↔
        ((r.origin.x ≤ p.x ∧ p.x < r.opposite.x) ∨ (r.opposite.x < p.x ∧ p.x ≤ r.origin.x))
        ∧ ((r.origin.y ≤ p.y ∧ p.y < r.opposite.y) ∨ (r.opposite.y < p.y ∧ p.y ≤ r.origin.y)))
      ∧ r.pixels.Nodup
      ∧ (r.pixels = [] ↔ r.origin.x = r.opposite.x ∨ r.origin.y = r.opposite.y))
    ∧ BoundingRect.pixels ⟨⟨0, 0⟩, ⟨2, 2⟩⟩ = [⟨0, 0⟩, ⟨0, 1⟩, ⟨1, 0⟩, ⟨1, 1⟩]
    ∧ BoundingRect.pixels ⟨⟨5, 5⟩, ⟨5, 5⟩⟩ = [] :=
  ⟨fun r => ⟨mem_rect_pixels_general r, rect_pixels_nodup r, rect_pixels_eq_nil_iff r⟩,
   by decide, by decide⟩

/-- Claim C5: for every `BoundingGroup`, `pixels()` is the de-duplicated
union of the children's pixel sets — no point occurs twice, and a point is
in the result exactly when some child covers it; in particular a group of
two identical rects produces the very pixel list of the rect alone (hence
the same cardinality). -/
theorem group_pixels_spec :
    (∀ cs : List Region, (Region.pixels (.group cs)).Nodup
      ∧ ∀ p : Point, (p ∈ Region.pixels (.group cs) ↔ ∃ c ∈ cs, p ∈ c.pixels))
    ∧ ∀ A B : Point,
        Region.pixels (.group [.rect ⟨A, B⟩, .rect ⟨A, B⟩]) = BoundingRect.pixels ⟨A, B⟩ := by
  constructor
  · intro cs
    rw [region_pixels_group]
    refine ⟨jsUniq_nodup _, fun p => ?_⟩
    rw [mem_jsUniq, List.mem_flatten]
    constructor
    · rintro ⟨l, hl, hp⟩
      rcases List.mem_map.1 hl with ⟨c, hc, rfl⟩
      exact ⟨c, hc, hp⟩
    · rintro ⟨c, hc, hp⟩
      exact ⟨c.pixels, List.mem_map.2 ⟨c, hc, rfl⟩, hp⟩
  · intro A B
    rw [region_pixels_group]
    simp only [List.map_cons, List.map_nil, Region.pixels, List.flatten_cons,
      List.flatten_nil, List.append_nil]
    rw [jsUniq_append_self]
    exact jsUniq_of_nodup _ (rect_pixels_nodup _)

/-- Claim C1: `move(newOrigin)` sets `stale` to `true`, snapshots into
`lastBoundingBox` the bounding box computed from the origin held before the
call (the setter reads the `boundingBox` getter before overwriting
`_origin`), and only then replaces the origin with `newOrigin`; and a 2×2
sprite moved from `(0,0)` to `(5,5)` subsequently reports `changedPixels()`
that is exactly the union of the half-open squares `[(0,0),(2,2))` and
`[(5,5),(7,7))` — the 8 listed distinct points. -/
theorem sprite_move_spec (s : Sprite) (o : Point) (bb : BoundingRect)
    (hbb : s.boundingBox = some bb) :
    s.move o = some { s with stale := true, lastBoundingBox := some bb, origin := o }
    ∧ ∀ (pal : Nat → Option String) (row0 row1 : List Nat) (st : Bool)
        (lb : Option BoundingRect), row0.length = 2 →
        ((Sprite.mk ⟨0, 0⟩ pal [row0, row1] st lb).move ⟨5, 5⟩).bind Sprite.changedPixels
          = some [⟨0, 0⟩, ⟨0, 1⟩, ⟨1, 0⟩, ⟨1, 1⟩, ⟨5, 5⟩, ⟨5, 6⟩, ⟨6, 5⟩, ⟨6, 6⟩] := by
  constructor
  · simp [Sprite.move, hbb]
  · intro pal row0 row1 st lb h2
    have hb1 : (Sprite.mk ⟨0, 0⟩ pal [row0, row1] st lb).boundingBox
        = some ⟨⟨0, 0⟩, ⟨2, 2⟩⟩ := by
      simp [Sprite.boundingBox, Point.add, h2]
    simp only [Sprite.move, hb1, Option.some_bind]
    have hb2 : (Sprite.mk ⟨5, 5⟩ pal [row0, row1] true (some ⟨⟨0, 0⟩, ⟨2, 2⟩⟩)).boundingBox
        = some ⟨⟨5, 5⟩, ⟨7, 7⟩⟩ := by
      simp [Sprite.boundingBox, Point.add, h2]
    simp only [Sprite.changedPixels, hb2]
    decide

theorem sprite_move_spec_witness :
    Sprite.move ⟨⟨0, 0⟩, testPalette, [[1, 1], [1, 1]], true, none⟩ ⟨5, 5⟩
      = some ⟨⟨5, 5⟩, testPalette, [[1, 1], [1, 1]], true, some ⟨⟨0, 0⟩, ⟨2, 2⟩⟩⟩
    ∧ ((Sprite.mk ⟨0, 0⟩ testPalette [[1, 1], [1, 1]] true none).move ⟨5, 5⟩).bind
        Sprite.changedPixels
      = some [⟨0, 0⟩, ⟨0, 1⟩, ⟨1, 0⟩, ⟨1, 1⟩, ⟨5, 5⟩, ⟨5, 6⟩, ⟨6, 5⟩, ⟨6, 6⟩] :=
  ⟨(sprite_move_spec ⟨⟨0, 0⟩, testPalette, [[1, 1], [1, 1]], true, none⟩ ⟨5, 5⟩
      ⟨⟨0, 0⟩, ⟨2, 2⟩⟩ rfl).1,
   (sprite_move_spec ⟨⟨0, 0⟩, testPalette, [[1, 1], [1, 1]], true, none⟩ ⟨5, 5⟩
      ⟨⟨0, 0⟩, ⟨2, 2⟩⟩ rfl).2 testPalette [1, 1] [1, 1] true none rfl⟩

/-- Claim C9: a freshly constructed sprite — `stale = true`,
`lastBoundingBox = null` — whose bitmap has `px.length` rows of leading
width `row0.length` reports as `changedPixels()` exactly the half-open
rectangle from its origin to origin + (width, height): its entire initial
bounding box, without duplicates. -/
theorem sprite_fresh_changedPixels (o : Point) (pal : Nat → Option String)
    (px : List (List Nat)) (row0 : List Nat) (h : px.head? = some row0) :
    ∃ cs, (mkSprite o pal px).changedPixels = some cs
      ∧ cs.Nodup
      ∧ ∀ p : Point, p ∈ cs ↔
          o.x ≤ p.x ∧ p.x < o.x + (row0.length : Int)
          ∧ o.y ≤ p.y ∧ p.y < o.y + (px.length : Int) := by
  refine ⟨(BoundingRect.mk o (o.add ⟨(row0.length : Int), (px.length : Int)⟩)).pixels,
    ?_, rect_pixels_nodup _, fun p => ?_⟩
  · simp [mkSprite, Sprite.changedPixels, Sprite.boundingBox, h]
  · have hx : (BoundingRect.mk o (o.add ⟨(row0.length : Int), (px.length : Int)⟩)).origin.x
        ≤ (BoundingRect.mk o (o.add ⟨(row0.length : Int), (px.length : Int)⟩)).opposite.x := by
      simp only [Point.add]
      omega
    have hy : (BoundingRect.mk o (o.add ⟨(row0.length : Int), (px.length : Int)⟩)).origin.y
        ≤ (BoundingRect.mk o (o.add ⟨(row0.length : Int), (px.length : Int)⟩)).opposite.y := by
      simp only [Point.add]
      omega
    rw [mem_rect_pixels hx hy p]
    simp only [Point.add]

theorem sprite_fresh_changedPixels_witness :
    (mkSprite ⟨10, 10⟩ testPalette [[1, 2], [3, 4]]).pixels.head? = some [1, 2]
    ∧ ∃ cs, (mkSprite ⟨10, 10⟩ testPalette [[1, 2], [3, 4]]).changedPixels = some cs
      ∧ cs.Nodup
      ∧ ∀ p : Point, p ∈ cs ↔
          (10 : Int) ≤ p.x ∧ p.x < 10 + (2 : Nat)
          ∧ (10 : Int) ≤ p.y ∧ p.y < 10 + (2 : Nat) :=
  ⟨rfl, sprite_fresh_changedPixels ⟨10, 10⟩ testPalette [[1, 2], [3, 4]] [1, 2] rfl⟩

/-- Claim C8, counterexample: a sprite whose bitmap has zero rows faults
instead of degrading gracefully: `boundingBox` reads `pixels[0].length` of
an empty array and throws a `TypeError` (modelled `none`) rather than
evaluating to the zero-area rect at the origin, and `getPixel` at the
origin itself throws as well rather than returning the no-color
sentinel. -/
theorem sprite_empty_bitmap_counterexample :
    Sprite.boundingBox ⟨⟨3, 4⟩, testPalette, [], true, none⟩ = none
    ∧ Sprite.boundingBox ⟨⟨3, 4⟩, testPalette, [], true, none⟩ ≠ some ⟨⟨3, 4⟩, ⟨3, 4⟩⟩
    ∧ Sprite.getPixel ⟨⟨3, 4⟩, testPalette, [], true, none⟩ 3 4 = none
    ∧ Sprite.getPixel ⟨⟨3, 4⟩, testPalette, [], true, none⟩ 3 4 ≠ some none :=
  ⟨rfl, by decide, rfl, by decide⟩

/-- Claim C8, amended: a sprite with an empty bitmap (`rows == 0`) faults:
`boundingBox` throws (modelled `none`), and `getPixel` throws whenever both
sprite-local coordinates are ≥ 0 (the `||` chain short-circuits before
reading `pixels[0]` only when `rx < 0` or `ry < 0`, in which case the
no-color sentinel is returned). -/
theorem sprite_empty_bitmap_spec (s : Sprite) (h : s.pixels = []) :
    s.boundingBox = none
    ∧ ∀ x y : Int, s.getPixel x y
        = if x - s.origin.x < 0 ∨ y - s.origin.y < 0 then some none else none := by
  refine ⟨by simp [Sprite.boundingBox, h], fun x y => ?_⟩
  by_cases hc : x - s.origin.x < 0 ∨ y - s.origin.y < 0
  · simp [Sprite.getPixel, hc, h]
  · simp [Sprite.getPixel, hc, h]

theorem sprite_empty_bitmap_spec_witness :
    Sprite.boundingBox ⟨⟨3, 4⟩, testPalette, [], true, none⟩ = none
    ∧ Sprite.getPixel ⟨⟨3, 4⟩, testPalette, [], true, none⟩ 2 4 = some none
    ∧ Sprite.getPixel ⟨⟨3, 4⟩, testPalette, [], true, none⟩ 3 4 = none :=
  ⟨(sprite_empty_bitmap_spec ⟨⟨3, 4⟩, testPalette, [], true, none⟩ rfl).1,
   (sprite_empty_bitmap_spec ⟨⟨3, 4⟩, testPalette, [], true, none⟩ rfl).2 2 4,
   (sprite_empty_bitmap_spec ⟨⟨3, 4⟩, testPalette, [], true, none⟩ rfl).2 3 4⟩

/-- Claim C7, code bug: the claim (and the `boundingBox` getter, which takes
`pixels[0].length` as the x-extent) treat the bitmap as rows × columns with
the cell for local coordinates `(rx, ry)` at row `ry`, column `rx`; the
source's `getPixel` instead evaluates `palette[this.pixels[rx][ry]]`
(`src/index.js:105`).  Consequently: on the 1-row × 2-column bitmap
`[[7, 8]]`, the in-bounds query `(1, 0)` evaluates `pixels[1][0]` with
`pixels[1]` `undefined` and throws a `TypeError` (modelled `none`) instead
of returning `palette[8]`; and on the square bitmap `[[1, 2], [3, 4]]` the
query `(1, 0)` returns `palette[3]` (the transposed cell) instead of the
claimed `palette[2]`. -/
theorem sprite_getPixel_transposed :
    Sprite.getPixel ⟨⟨0, 0⟩, testPalette, [[7, 8]], true, none⟩ 1 0 = none
    ∧ Sprite.getPixel ⟨⟨0, 0⟩, testPalette, [[1, 2], [3, 4]], true, none⟩ 1 0
        = some (testPalette 3)
    ∧ testPalette 3 = some "c3"
    ∧ testPalette 2 = some "c2"
    ∧ some (some "c3") ≠ (some (some "c2") : Option (Option String)) :=
  ⟨rfl, rfl, rfl, rfl, by decide⟩

theorem optMap_mem_flatten {α β : Type} (f : α → Option (List β)) (l : List α)
    (ls : List (List β)) (h : optMap f l = some ls) (p : β) :
    p ∈ ls.flatten ↔ ∃ a ∈ l, ∃ cs, f a = some cs ∧ p ∈ cs := by
  induction l generalizing ls with
  | nil =>
    cases h
    simp
  | cons a t ih =>
    unfold optMap at h
    cases hfa : f a with
    | none => rw [hfa] at h; cases h
    | some b =>
      rw [hfa, Option.some_bind] at h
      cases ht : optMap f t with
      | none => rw [ht] at h; cases h
      | some bs =>
        rw [ht, Option.some_bind] at h
        cases h
        simp only [List.flatten_cons, List.mem_append, List.mem_cons]
        rw [ih bs ht]
        constructor
        · rintro (hb | ⟨a', ha', cs, hcs, hp⟩)
          · exact ⟨a, Or.inl rfl, b, hfa, hb⟩
          · exact ⟨a', Or.inr ha', cs, hcs, hp⟩
        · rintro ⟨a', (rfl | ha'), cs, hcs, hp⟩
          · rw [hfa] at hcs
            cases hcs
            exact Or.inl hp
          · exact Or.inr ⟨a', ha', cs, hcs, hp⟩

/-- Claim C2: `Layer.changedPixels()` is the de-duplicated union, across
exactly the member objects whose `stale` flag is `true`, of those objects'
`changedPixels()`; a point is reported iff some stale member reports it, so
members with `stale = false` contribute nothing. -/
theorem layer_changedPixels_spec (l : Layer) (ps : List Point)
    (h : l.changedPixels = some ps) :
    ps.Nodup ∧ ∀ p : Point,
      (p ∈ ps ↔ ∃ o ∈ l.objects, o.stale = true
        ∧ ∃ cs, o.changedPixels = some cs ∧ p ∈ cs) := by
  cases hm : optMap Drawable.changedPixels (l.objects.filter Drawable.stale) with
  | none => rw [Layer.changedPixels, hm] at h; cases h
  | some ls =>
    rw [Layer.changedPixels, hm] at h
    cases h
    refine ⟨jsUniq_nodup _, fun p => ?_⟩
    rw [mem_jsUniq, optMap_mem_flatten _ _ _ hm p]
    constructor
    · rintro ⟨o, ho, cs, hcs, hp⟩
      rcases List.mem_filter.1 ho with ⟨ho1, ho2⟩
      exact ⟨o, ho1, ho2, cs, hcs, hp⟩
    · rintro ⟨o, ho, hst, cs, hcs, hp⟩
      exact ⟨o, List.mem_filter.2 ⟨ho, hst⟩, cs, hcs, hp⟩

/-- A still (never-moved, already-consumed) 1×1 sprite with `stale = false`,
for the claim C2 witness. -/
def stillSprite : Sprite := ⟨⟨50, 50⟩, testPalette, [[1]], false, none⟩

/-- A 2×2 sprite that has just been moved from `(0,0)` to `(5,5)`
(`stale = true`, previous box snapshotted), for the claim C2 witness. -/
def movedSprite : Sprite := ⟨⟨5, 5⟩, testPalette, [[1, 1], [1, 1]], true, some ⟨⟨0, 0⟩, ⟨2, 2⟩⟩⟩

theorem layer_changedPixels_spec_witness :
    Layer.changedPixels ⟨[.sprite stillSprite, .sprite movedSprite], none⟩
      = some [⟨0, 0⟩, ⟨0, 1⟩, ⟨1, 0⟩, ⟨1, 1⟩, ⟨5, 5⟩, ⟨5, 6⟩, ⟨6, 5⟩, ⟨6, 6⟩]
    ∧ ([⟨0, 0⟩, ⟨0, 1⟩, ⟨1, 0⟩, ⟨1, 1⟩, ⟨5, 5⟩, ⟨5, 6⟩, ⟨6, 5⟩, (⟨6, 6⟩ : Point)].Nodup
      ∧ ∀ p : Point,
        (p ∈ [⟨0, 0⟩, ⟨0, 1⟩, ⟨1, 0⟩, ⟨1, 1⟩, ⟨5, 5⟩, ⟨5, 6⟩, ⟨6, 5⟩, (⟨6, 6⟩ : Point)] ↔
          ∃ o ∈ [Drawable.sprite stillSprite, Drawable.sprite movedSprite],
            o.stale = true ∧ ∃ cs, o.changedPixels = some cs ∧ p ∈ cs)) :=
  ⟨by decide,
   layer_changedPixels_spec ⟨[.sprite stillSprite, .sprite movedSprite], none⟩
     [⟨0, 0⟩, ⟨0, 1⟩, ⟨1, 0⟩, ⟨1, 1⟩, ⟨5, 5⟩, ⟨5, 6⟩, ⟨6, 5⟩, ⟨6, 6⟩] (by decide)⟩

/-- Whether a drawable's `getPixel(x, y)` evaluates (without throwing) to a
truthy colour — the condition under which `Layer.getPixel`'s scan stops. -/
def isHit (x y : Int) (o : Drawable) : Bool :=
  match o.getPixel x y with
  | some v => truthy v
  | none => false

theorem layer_getPixel_miss (objs : List Drawable) (x y : Int)
    (hok : ∀ o ∈ objs, o.getPixel x y ≠ none)
    (hmiss : ∀ o ∈ objs, isHit x y o = false) :
    layerGetPixelAux objs x y = (some none, objs) := by
  induction objs with
  | nil => rfl
  | cons o os ih =>
    cases hv : o.getPixel x y with
    | none => exact absurd hv (hok o (List.mem_cons_self o os))
    | some v =>
      have htr : truthy v = false := by
        simpa [isHit, hv] using hmiss o (List.mem_cons_self o os)
      simp only [layerGetPixelAux, hv, htr]
      rw [ih (fun o' h' => hok o' (List.mem_cons_of_mem _ h'))
        (fun o' h' => hmiss o' (List.mem_cons_of_mem _ h'))]
      simp

theorem layer_getPixel_hit (pre : List Drawable) (o : Drawable) (post : List Drawable)
    (x y : Int) (hok : ∀ o' ∈ pre, o'.getPixel x y ≠ none)
    (hmiss : ∀ o' ∈ pre, isHit x y o' = false)
    (hhit : isHit x y o = true) :
    layerGetPixelAux (pre ++ o :: post) x y
      = (o.getPixel x y, pre ++ o.clearStale :: post) := by
  induction pre with
  | nil =>
    cases hv : o.getPixel x y with
    | none => simp [isHit, hv] at hhit
    | some v =>
      have htr : truthy v = true := by simpa [isHit, hv] using hhit
      simp [layerGetPixelAux, hv, htr]
  | cons q qre ih =>
    cases hv : q.getPixel x y with
    | none => exact absurd hv (hok q (List.mem_cons_self q qre))
    | some v =>
      have htr : truthy v = false := by
        simpa [isHit, hv] using hmiss q (List.mem_cons_self q qre)
      have hrest := ih (fun o' h' => hok o' (List.mem_cons_of_mem _ h'))
        (fun o' h' => hmiss o' (List.mem_cons_of_mem _ h'))
      show layerGetPixelAux (q :: (qre ++ o :: post)) x y
        = (o.getPixel x y, q :: (qre ++ o.clearStale :: post))
      simp only [layerGetPixelAux, hv, htr]
      simp [hrest]

/-- Claim C3: `Layer.getPixel(x, y)` scans the member objects in paint
order.  If no object yields a truthy colour, it returns the `false`
sentinel and leaves every object (in particular every `stale` flag)
unchanged.  Otherwise, writing the objects as `pre ++ o :: post` where `o`
is the first object whose `getPixel` is truthy, it returns `o`'s colour and
replaces only `o` by its stale-cleared version, leaving all objects in
`pre` and `post` — and their `stale` flags — untouched.  (The no-throw
hypothesis `hok` excludes the bitmaps on which `Sprite.getPixel` raises a
`TypeError`.) -/
theorem layer_getPixel_spec (objs : List Drawable) (x y : Int)
    (hok : ∀ o ∈ objs, o.getPixel x y ≠ none) :
    ((∀ o ∈ objs, isHit x y o = false) → layerGetPixelAux objs x y = (some none, objs))
    ∧ ∀ pre o post, objs = pre ++ o :: post →
        (∀ o' ∈ pre, isHit x y o' = false) → isHit x y o = true →
        layerGetPixelAux objs x y = (o.getPixel x y, pre ++ o.clearStale :: post) := by
  constructor
  · exact layer_getPixel_miss objs x y hok
  · rintro pre o post rfl hmiss hhit
    exact layer_getPixel_hit pre o post x y
      (fun o' h' => hok o' (List.mem_append_left _ h')) hmiss hhit

/-- The front sprite of the claim C3 witness: 1×1, stale, covering `(0,0)`
with colour `c1`. -/
def spriteA : Sprite := ⟨⟨0, 0⟩, testPalette, [[1]], true, none⟩

/-- The occluded sprite of the claim C3 witness: 1×1, stale, also covering
`(0,0)`, with colour `c2`. -/
def spriteB : Sprite := ⟨⟨0, 0⟩, testPalette, [[2]], true, none⟩

theorem layer_getPixel_spec_witness :
    (∀ o ∈ [Drawable.sprite spriteA, Drawable.sprite spriteB],
      Drawable.getPixel o 0 0 ≠ none)
    ∧ isHit 0 0 (Drawable.sprite spriteA) = true
    ∧ layerGetPixelAux [Drawable.sprite spriteA, Drawable.sprite spriteB] 0 0
        = (some (some "c1"),
           [Drawable.sprite ⟨⟨0, 0⟩, testPalette, [[1]], false, none⟩,
            Drawable.sprite spriteB])
    ∧ Drawable.stale (Drawable.sprite ⟨⟨0, 0⟩, testPalette, [[1]], false, none⟩) = false
    ∧ Drawable.stale (Drawable.sprite spriteB) = true :=
  ⟨by decide, by decide,
   (layer_getPixel_spec [Drawable.sprite spriteA, Drawable.sprite spriteB] 0 0
      (by decide)).2 [] (Drawable.sprite spriteA) [Drawable.sprite spriteB] rfl
      (by decide) (by decide),
   by decide, by decide⟩

/-- Every `'lighter'` blend-mode assignment in a trace is immediately
followed by a fill-style assignment and then a `fillRect` — i.e. each such
assignment precedes one fill call of that layer. -/
def lighterPrecedesFill : List CtxOp → Bool
  | [] => true
  | .setComposite m :: rest =>
    if m == "lighter" then
      match rest with
      | .setFillStyle _ :: .fillRect _ _ :: _ => lighterPrecedesFill rest
      | _ => false
    else lighterPrecedesFill rest
  | _ :: rest => lighterPrecedesFill rest

set_option maxRecDepth 10000 in
/-- Claim C10, counterexample: drawing the moved-by-one-diagonal-pixel
10×10 sprite scene issues an assignment of `'lighter'` to
`ctx.globalCompositeOperation` once per changed pixel — 119 times in the
single `draw()` — because `Layer.drawPixel` sets the blend mode before
every per-pixel fill; the claimed "exactly one" such invocation is false. -/
theorem canvas_draw_lighter_count :
    demoScene.draw.map (fun r => countLighterSets r.1) = some 119
    ∧ (119 : Nat) ≠ 1 :=
  ⟨rfl, by decide⟩

set_option maxRecDepth 10000 in
/-- Claim C10, amended: in the single `draw()` of the demo scene every
surface fill call targets a pixel inside the union of the sprite's old
(`[(95,95),(105,105))`) and new (`[(96,96),(106,106))`) bounding boxes, and
a `setBlendMode('lighter')`-equivalent assignment immediately precedes that
layer's fill call for each changed pixel — one per changed pixel (119 of
them), rather than exactly one for the whole draw. -/
theorem canvas_draw_dirty_region :
    demoScene.draw.map (fun r => (fillCoords r.1).all inDemoUnion) = some true
    ∧ demoScene.draw.map (fun r => countLighterSets r.1)
        = demoScene.changedPixels.map List.length
    ∧ demoScene.changedPixels.map List.length = some 119
    ∧ demoScene.draw.map (fun r => lighterPrecedesFill r.1) = some true :=
  ⟨rfl, rfl, rfl, rfl⟩

end SevenUp
